import Mathlib

/-!
Verification of the datadog-scanner detection engine.

The Python sources (datadog_detector.py, detectors/base_detector.py,
code_scanner.py, models.py) are shallowly embedded below.  Strings are
modelled as lists of character codes (`Str`), Python dicts as ordered
association lists, and the regular expressions of the detector as terms
of a small regex AST evaluated by a fuel-bounded backtracking matcher
that mirrors Python `re.search` / `re.finditer` semantics (leftmost
match, greedy quantifiers, capture groups, word boundaries, negative
lookahead, optional case-insensitivity).
-/

set_option maxRecDepth 100000

namespace DatadogScanner

/-- Strings are modelled as lists of character codes. -/
abbrev Str := List Nat

/-- Character codes of a Lean string literal. -/
def strOf (s : String) : Str := s.data.map Char.toNat

/-- Python `str.isspace` for the ASCII whitespace used by `\s`. -/
def isSpaceCode (c : Nat) : Bool :=
  c == 32 || c == 9 || c == 10 || c == 13 || c == 11 || c == 12

/-- Word characters, the `\w` class of Python `re`. -/
def isWordCode (c : Nat) : Bool :=
  (48 ≤ c && c ≤ 57) || (65 ≤ c && c ≤ 90) || (97 ≤ c && c ≤ 122) || c == 95

/-- ASCII lower-casing, the effect of Python `str.lower` on the scanned text. -/
def lowerCode (c : Nat) : Nat := if 65 ≤ c && c ≤ 90 then c + 32 else c

/-- Python `str.lower`. -/
def lowerStr (s : Str) : Str := s.map lowerCode

/-- Python `str.strip()`. -/
def pyStrip (s : Str) : Str :=
  ((s.dropWhile isSpaceCode).reverse.dropWhile isSpaceCode).reverse

/-- Python slice `l[s:e]` for non-negative clamped bounds. -/
def pySlice (l : List α) (s e : Nat) : List α := (l.drop s).take (e - s)

/-- Python `hay.startswith(pat)`. -/
def strStarts (pat s : Str) : Bool := s.take pat.length == pat

/-- Whether `pat` occurs in `s` starting at index `i`. -/
def occursAt (s : Str) (i : Nat) (pat : Str) : Bool := pySlice s i (i + pat.length) == pat

/-- Python substring test `needle in hay`. -/
def inStr (needle hay : Str) : Bool :=
  (List.range (hay.length + 1)).any (fun i => occursAt hay i needle)

/-- Index of the first occurrence of `pat` in `s`, scanning positions downward
from `n` remaining candidates starting at index `i`. -/
def findSubAux (s pat : Str) : Nat → Nat → Option Nat
  | i, 0 => if occursAt s i pat then some i else none
  | i, n + 1 => if occursAt s i pat then some i else findSubAux s pat (i + 1) n

/-- Python `s.find(pat)` restricted to successful results: index of the first
occurrence of `pat` in `s`. -/
def findSub (pat s : Str) : Option Nat := findSubAux s pat 0 s.length

/-- Python `s.split(sep)[0]`: the text before the first occurrence of `sep`. -/
def beforeFirst (sep s : Str) : Str :=
  match findSub sep s with
  | some i => s.take i
  | none => s

/-- Index of the first occurrence of character `c` in `s` at index `≥ i`
(Python `s.find(c, i)`). -/
def findCharFrom (s : Str) (c : Nat) : Nat → Option Nat :=
  fun i => (findSubAux s [c] i (s.length - i)).filter (fun _ => i ≤ s.length)

/-- Index of the last occurrence of character `c` in `s` (Python `s.rfind(c)`). -/
def findCharLast (s : Str) (c : Nat) : Option Nat :=
  (s.reverse.indexOf? c).map (fun i => s.length - 1 - i)

/-- Python ordered dict with string keys and values: assignment keeps the
position of an existing key and appends a fresh one. -/
abbrev Dict := List (Str × Str)

/-- Python dict assignment `d[k] = v`. -/
def dictSet (d : Dict) (k v : Str) : Dict :=
  match d with
  | [] => [(k, v)]
  | p :: rest => if p.1 = k then (k, v) :: rest else p :: dictSet rest k v

/-- Python dict lookup `d.get(k)`. -/
def dictGet? (d : Dict) (k : Str) : Option Str :=
  (d.find? (fun p => p.1 == k)).map (fun p => p.2)

/-- Python membership test `k in d`. -/
def dictHas (d : Dict) (k : Str) : Bool := d.any (fun p => p.1 == k)

/-- Python `d.get(k, v)`. -/
def dictGetD (d : Dict) (k v : Str) : Str := (dictGet? d k).getD v

/-- Python `repr` of a string: quote selection and escaping of the quote and
backslash, as used by `str(dict)` (the scanned code lines contain no other
characters that `repr` escapes). -/
def pyReprStr (s : Str) : Str :=
  let q : Nat := if s.contains 39 && !(s.contains 34) then 34 else 39
  [q] ++ (s.map (fun c => if c == 92 || c == q then [92, c] else [c])).flatten ++ [q]

/-- Python `str` of a `Dict` (`{'k': 'v', ...}`). -/
def pyStrDict (d : Dict) : Str :=
  [123] ++ (List.intercalate (strOf ", ")
    (d.map (fun p => pyReprStr p.1 ++ strOf ": " ++ pyReprStr p.2))) ++ [125]

/-- Operation types, from models.DataDogOperationType. -/
inductive DataDogOperationType where
  | IMPORT
  | INIT
  | RUM_ACTION
  | RUM_ERROR
  | RUM_TIMING
  | LOG_INFO
  | LOG_ERROR
  | LOG_WARN
  | LOG_DEBUG
  | CUSTOM_ATTRIBUTE
  | CONFIGURATION
  | METHOD_CALL
deriving DecidableEq, Repr

/-- Data categories, from models.DataCategory. -/
inductive DataCategory where
  | USER_DATA
  | SYSTEM_DATA
  | ERROR_DATA
  | PERFORMANCE_DATA
  | CONFIGURATION_DATA
  | UNKNOWN
deriving DecidableEq, Repr

/-- Values of the detailed-parameter map: strings, or the list of string
literals stored under `string_literals`. -/
inductive PyVal where
  | s (v : Str)
  | strList (v : List Str)
deriving DecidableEq, Repr

/-- The detailed-parameter dict (`Dict[str, Any]` in the source). -/
abbrev PDict := List (Str × PyVal)

/-- Detailed-parameter dict assignment. -/
def pdictSet (d : PDict) (k : Str) (v : PyVal) : PDict :=
  match d with
  | [] => [(k, v)]
  | p :: rest => if p.1 = k then (k, v) :: rest else p :: pdictSet rest k v

/-- Findings, from models.DataDogFinding. -/
structure DataDogFinding where
  file_path : Str
  line_number : Nat
  code_snippet : Str
  operation_type : DataDogOperationType
  data_being_sent : Dict
  data_category : DataCategory
  context_lines : List Str
  github_url : Str
  project_name : Str
  extracted_parameters : Option PDict
deriving DecidableEq, Repr

/-- Deduplication key: `(finding.file_path, finding.line_number)`. -/
def findingKey (f : DataDogFinding) : Str × Nat := (f.file_path, f.line_number)

/-- The replacement test of `_deduplicate_findings`
(datadog_detector.py lines 603-604): the new finding wins when its
`str(data_being_sent)` is strictly longer, or when it has a `method_name`
key and the kept one does not. -/
def richerThan (numeral old : DataDogFinding) : Bool :=
  decide ((pyStrDict numeral.data_being_sent).length > (pyStrDict old.data_being_sent).length)
  || (dictHas numeral.data_being_sent (strOf "method_name")
      && !(dictHas old.data_being_sent (strOf "method_name")))

/-- Index of the first finding in `acc` with key `k`: the
enumerate-and-break linear search of datadog_detector.py lines 595-598. -/
def findIdxOfKey (acc : List DataDogFinding) (k : Str × Nat) : Option Nat :=
  match acc with
  | [] => none
  | e :: rest =>
    if findingKey e = k then some 0 else (findIdxOfKey rest k).map (· + 1)

/-- The loop of `_deduplicate_findings` (datadog_detector.py lines 579-607,
identical to detectors/base_detector.py lines 50-78): `seen` is the set of
keys already kept, `acc` the kept findings in order. -/
def dedupGo (seen : List (Str × Nat)) (acc : List DataDogFinding) :
    List DataDogFinding → List DataDogFinding
  | [] => acc
  | f :: rest =>
    let k := findingKey f
    if k ∈ seen then
      match findIdxOfKey acc k with
      | some i =>
        match acc.get? i with
        | some existing =>
          if richerThan f existing then dedupGo seen (acc.set i f) rest
          else dedupGo seen acc rest
        | none => dedupGo seen acc rest
      | none => dedupGo seen acc rest
    else
      dedupGo (k :: seen) (acc ++ [f]) rest

/-- `_deduplicate_findings`. -/
def deduplicateFindings (findings : List DataDogFinding) : List DataDogFinding :=
  dedupGo [] [] findings

/-- One deduplication step as §4.4 of the spec words it: the first candidate
for a key is kept by default, and a later candidate for the same key replaces
the kept one exactly when `richerThan` holds. -/
def dedupStep (acc : List DataDogFinding) (f : DataDogFinding) : List DataDogFinding :=
  match findIdxOfKey acc (findingKey f) with
  | none => acc ++ [f]
  | some i =>
    match acc.get? i with
    | some existing => if richerThan f existing then acc.set i f else acc
    | none => acc

/-- Invariant of the deduplication loop: `seen` holds exactly the keys of the
kept findings. -/
def SeenInv (seen : List (Str × Nat)) (acc : List DataDogFinding) : Prop :=
  ∀ k, k ∈ seen ↔ k ∈ acc.map findingKey

/-- Regex AST covering the constructs used by the detector's patterns. -/
inductive RE where
  | eps : RE
  | chr (c : Nat) : RE
  | dotAny : RE
  | cls (cs : List Nat) (neg : Bool) : RE
  | ws : RE
  | wordc : RE
  | seq (a b : RE) : RE
  | alt (a b : RE) : RE
  | star (r : RE) : RE
  | group (n : Nat) (r : RE) : RE
  | wordB : RE
  | nla (r : RE) : RE
deriving DecidableEq, Repr

/-- Structural size of a regex, used to compute the matcher fuel. -/
def reSize : RE → Nat
  | .eps => 1
  | .chr _ => 1
  | .dotAny => 1
  | .cls _ _ => 1
  | .ws => 1
  | .wordc => 1
  | .seq a b => reSize a + reSize b + 1
  | .alt a b => reSize a + reSize b + 1
  | .star r => reSize r + 1
  | .group _ r => reSize r + 1
  | .wordB => 1
  | .nla r => reSize r + 1

/-- Greedy `+`: one occurrence followed by a greedy star. -/
def rePlus (r : RE) : RE := .seq r (.star r)

/-- Sequencing of a pattern list. -/
def rcat : List RE → RE
  | [] => .eps
  | [r] => r
  | r :: rest => .seq r (rcat rest)

/-- Literal sequence for a list of character codes (`re.escape` text). -/
def reOfCodes : List Nat → RE
  | [] => .eps
  | [c] => .chr c
  | c :: rest => .seq (.chr c) (reOfCodes rest)

/-- Literal regex for a Lean string literal. -/
def relit (s : String) : RE := reOfCodes (strOf s)

/-- Character comparison, optionally case-insensitive. -/
def cmpC (icase : Bool) (c d : Nat) : Bool :=
  if icase then lowerCode c == lowerCode d else c == d

/-- Character class membership, optionally case-insensitive. -/
def clsMatch (icase : Bool) (cs : List Nat) (neg : Bool) (d : Nat) : Bool :=
  let base := if icase then (cs.map lowerCode).contains (lowerCode d) else cs.contains d
  if neg then !base else base

/-- Whether the character at index `i` is a word character. -/
def isWordAt (s : Str) (i : Nat) : Bool :=
  match s.get? i with
  | some c => isWordCode c
  | none => false

/-- Python `\b`: exactly one of the neighbouring positions is a word character. -/
def wordBoundary (s : Str) (i : Nat) : Bool :=
  let cur := isWordAt s i
  let prev := if i == 0 then false else isWordAt s (i - 1)
  cur != prev

/-- Capture list: `(group index, start, stop)`, most recent first. -/
abbrev Caps := List (Nat × Nat × Nat)

/-- Fuel-bounded CPS backtracking matcher.  `reM s icase fuel re i cp k` tries
to match `re` in `s` at index `i` with captures `cp`, calling `k` on success.
Alternation is left-first, stars are greedy with backtracking, matching
Python `re` semantics; the fuel only bounds the recursion and is chosen large
enough by the callers below. -/
def reM (s : Str) (icase : Bool) :
    Nat → RE → Nat → Caps → (Nat → Caps → Option (Nat × Caps)) → Option (Nat × Caps)
  | 0, _, _, _, _ => none
  | fuel + 1, re, i, cp, k =>
    match re with
    | .eps => k i cp
    | .chr c =>
      match s.get? i with
      | some d => if cmpC icase c d then k (i + 1) cp else none
      | none => none
    | .dotAny =>
      match s.get? i with
      | some d => if d == 10 then none else k (i + 1) cp
      | none => none
    | .cls cs neg =>
      match s.get? i with
      | some d => if clsMatch icase cs neg d then k (i + 1) cp else none
      | none => none
    | .ws =>
      match s.get? i with
      | some d => if isSpaceCode d then k (i + 1) cp else none
      | none => none
    | .wordc =>
      match s.get? i with
      | some d => if isWordCode d then k (i + 1) cp else none
      | none => none
    | .seq a b => reM s icase fuel a i cp (fun j cp2 => reM s icase fuel b j cp2 k)
    | .alt a b =>
      match reM s icase fuel a i cp k with
      | some r => some r
      | none => reM s icase fuel b i cp k
    | .star r =>
      match reM s icase fuel r i cp
          (fun j cp2 => if i < j then reM s icase fuel (.star r) j cp2 k else none) with
      | some res => some res
      | none => k i cp
    | .group n r => reM s icase fuel r i cp (fun j cp2 => k j ((n, i, j) :: cp2))
    | .wordB => if wordBoundary s i then k i cp else none
    | .nla r =>
      match reM s icase fuel r i cp (fun j cp2 => some (j, cp2)) with
      | some _ => none
      | none => k i cp

/-- Ample fuel for matching `re` against `s`. -/
def reFuel (s : Str) (re : RE) : Nat := (reSize re + 2) * (s.length + 2) + 100

/-- Attempt a match anchored at index `i`; returns the end index and captures. -/
def reTryAt (icase : Bool) (re : RE) (s : Str) (i : Nat) : Option (Nat × Caps) :=
  reM s icase (reFuel s re) re i [] (fun j cp => some (j, cp))

/-- Scan for the leftmost match trying `i`, `i+1`, ... (`n` further positions). -/
def reSearchAux (icase : Bool) (re : RE) (s : Str) : Nat → Nat → Option (Nat × Nat × Caps)
  | i, 0 =>
    match reTryAt icase re s i with
    | some (j, cp) => some (i, j, cp)
    | none => none
  | i, n + 1 =>
    match reTryAt icase re s i with
    | some (j, cp) => some (i, j, cp)
    | none => reSearchAux icase re s (i + 1) n

/-- Python `re.search`: leftmost match, as `(start, stop, captures)`. -/
def reSearch (icase : Bool) (re : RE) (s : Str) : Option (Nat × Nat × Caps) :=
  reSearchAux icase re s 0 s.length

/-- Python `match.group(n)` of a search result (`n = 0` is the whole match). -/
def matchGroup (s : Str) (res : Nat × Nat × Caps) (n : Nat) : Option Str :=
  if n == 0 then some (pySlice s res.1 res.2.1)
  else ((res.2.2.find? (fun t => t.1 == n)).map (fun t => pySlice s t.2.1 t.2.2))

/-- Search plus extraction of capture group 1. -/
def searchGroup1 (icase : Bool) (re : RE) (s : Str) : Option Str :=
  match reSearch icase re s with
  | none => none
  | some res => matchGroup s res 1

/-- Python `re.finditer`: non-overlapping matches scanning left to right,
advancing past each match (one further for empty matches). -/
def reFindIterAux (icase : Bool) (re : RE) (s : Str) : Nat → Nat → List (Nat × Nat × Caps)
  | _, 0 => []
  | pos, fuel + 1 =>
    if pos > s.length then []
    else
      match reSearchAux icase re s pos (s.length - pos) with
      | none => []
      | some (i, j, cp) =>
        (i, j, cp) :: reFindIterAux icase re s (if i < j then j else j + 1) fuel

/-- Python `re.finditer`. -/
def reFindIter (icase : Bool) (re : RE) (s : Str) : List (Nat × Nat × Caps) :=
  reFindIterAux icase re s 0 (s.length + 2)

/-- Python `re.findall` for a single-group pattern. -/
def reFindAll1 (icase : Bool) (re : RE) (s : Str) : List Str :=
  (reFindIter icase re s).map (fun r => (matchGroup s r 1).getD [])

/-- Python `re.findall` for a two-group pattern. -/
def reFindAll2 (icase : Bool) (re : RE) (s : Str) : List (Str × Str) :=
  (reFindIter icase re s).map
    (fun r => ((matchGroup s r 1).getD [], (matchGroup s r 2).getD []))

/-- Character class `['"]`. -/
def quoteC : RE := .cls [39, 34] false

/-- Greedy `\s*`. -/
def wsStar : RE := .star .ws

/-- Greedy `\s+`. -/
def wsPlus : RE := rePlus .ws

/-- Greedy `.*`. -/
def dotStar : RE := .star .dotAny

/-- Literal `(`. -/
def lp : RE := .chr 40

/-- The `imports` pattern group of `_compile_patterns`
(datadog_detector.py lines 24-32). -/
def importsGroup : List RE :=
  [rcat [relit "import", wsPlus, dotStar, relit "@datadog/browser-rum"],
   rcat [relit "import", wsPlus, dotStar, relit "@datadog/browser-logs"],
   rcat [relit "import", wsPlus, dotStar, relit "@datadog/browser-rum-react"],
   rcat [relit "from", wsPlus, quoteC, relit "@datadog/browser-rum", quoteC],
   rcat [relit "from", wsPlus, quoteC, relit "@datadog/browser-logs", quoteC],
   rcat [relit "require", wsStar, lp, wsStar, quoteC, relit "@datadog/browser-rum", quoteC],
   rcat [relit "require", wsStar, lp, wsStar, quoteC, relit "@datadog/browser-logs", quoteC]]

/-- The `init` pattern group (lines 35-39). -/
def initGroup : List RE :=
  [rcat [relit "datadogRum.init", wsStar, lp],
   rcat [relit "datadogLogs.createLogger", wsStar, lp],
   rcat [relit "DD_RUM.init", wsStar, lp]]

/-- The `rum_action` pattern group (lines 42-45). -/
def rumActionGroup : List RE :=
  [rcat [relit "datadogRum.addAction", wsStar, lp],
   rcat [relit "DD_RUM.addAction", wsStar, lp]]

/-- The `rum_error` pattern group (lines 47-50). -/
def rumErrorGroup : List RE :=
  [rcat [relit "datadogRum.addError", wsStar, lp],
   rcat [relit "DD_RUM.addError", wsStar, lp]]

/-- The `rum_timing` pattern group (lines 52-55). -/
def rumTimingGroup : List RE :=
  [rcat [relit "datadogRum.addTiming", wsStar, lp],
   rcat [relit "DD_RUM.addTiming", wsStar, lp]]

/-- The `log_info` pattern group (lines 58-61). -/
def logInfoGroup : List RE :=
  [rcat [relit "logger.info", wsStar, lp],
   rcat [relit "datadogLogs.logger.info", wsStar, lp]]

/-- The `log_error` pattern group (lines 63-66). -/
def logErrorGroup : List RE :=
  [rcat [relit "logger.error", wsStar, lp],
   rcat [relit "datadogLogs.logger.error", wsStar, lp]]

/-- The `log_warn` pattern group (lines 68-71). -/
def logWarnGroup : List RE :=
  [rcat [relit "logger.warn", wsStar, lp],
   rcat [relit "datadogLogs.logger.warn", wsStar, lp]]

/-- The `log_debug` pattern group (lines 73-76). -/
def logDebugGroup : List RE :=
  [rcat [relit "logger.debug", wsStar, lp],
   rcat [relit "datadogLogs.logger.debug", wsStar, lp]]

/-- The full pattern table `self.patterns`, in dict insertion order. -/
def patternsTable : List (Str × List RE) :=
  [(strOf "imports", importsGroup),
   (strOf "init", initGroup),
   (strOf "rum_action", rumActionGroup),
   (strOf "rum_error", rumErrorGroup),
   (strOf "rum_timing", rumTimingGroup),
   (strOf "log_info", logInfoGroup),
   (strOf "log_error", logErrorGroup),
   (strOf "log_warn", logWarnGroup),
   (strOf "log_debug", logDebugGroup)]

/-- Regex `import\s+({[^}]+}|\w+)` of `_extract_data_from_line` (line 180). -/
def importsItemsRe : RE :=
  rcat [relit "import", wsPlus,
        .group 1 (.alt (rcat [.chr 123, rePlus (.cls [125] true), .chr 125]) (rePlus .wordc))]

/-- Regex `['"](@datadog/[^'"]+)['"]` (line 184). -/
def packageRe : RE :=
  rcat [quoteC, .group 1 (rcat [relit "@datadog/", rePlus (.cls [39, 34] true)]), quoteC]

/-- Regex `\(\s*({[^}]+})` (line 190). -/
def initConfigRe : RE :=
  rcat [lp, wsStar, .group 1 (rcat [.chr 123, rePlus (.cls [125] true), .chr 125])]

/-- Regex `applicationId\s*:\s*['"]([^'"]+)['"]` (line 198). -/
def appIdRe : RE :=
  rcat [relit "applicationId", wsStar, .chr 58, wsStar, quoteC,
        .group 1 (rePlus (.cls [39, 34] true)), quoteC]

/-- Regex `clientToken\s*:\s*['"]([^'"]+)['"]` (line 202). -/
def clientTokenRe : RE :=
  rcat [relit "clientToken", wsStar, .chr 58, wsStar, quoteC,
        .group 1 (rePlus (.cls [39, 34] true)), quoteC]

/-- Regex `site\s*:\s*['"]([^'"]+)['"]` (line 206). -/
def siteRe : RE :=
  rcat [relit "site", wsStar, .chr 58, wsStar, quoteC,
        .group 1 (rePlus (.cls [39, 34] true)), quoteC]

/-- Regex `\(\s*([^)]+)\)` (lines 215 and 233). -/
def paramsRe : RE :=
  rcat [lp, wsStar, .group 1 (rePlus (.cls [41] true)), .chr 41]

/-- Regex `['"]([^'"]+)['"]` (lines 222, 227, 239 and 295). -/
def strLitRe : RE :=
  rcat [quoteC, .group 1 (rePlus (.cls [39, 34] true)), quoteC]

/-- Regex `\w+\s*\(\s*([^)]+)\)` of `_extract_detailed_parameters` (line 285). -/
def funcCallRe : RE :=
  rcat [rePlus .wordc, wsStar, lp, wsStar, .group 1 (rePlus (.cls [41] true)), .chr 41]

/-- Regex `(\w+)\s*:\s*([^,}]+)` (line 290). -/
def kvRe : RE :=
  rcat [.group 1 (rePlus .wordc), wsStar, .chr 58, wsStar,
        .group 2 (rePlus (.cls [44, 125] true))]

/-- Named-import regex
`import\s+\{\s*([^}]+)\s*\}\s+from\s+['"](@datadog/[^'"]+)['"]`
of `_extract_imported_methods` (line 358). -/
def namedImportRe : RE :=
  rcat [relit "import", wsPlus, .chr 123, wsStar, .group 1 (rePlus (.cls [125] true)),
        wsStar, .chr 125, wsPlus, relit "from", wsPlus, quoteC,
        .group 2 (rcat [relit "@datadog/", rePlus (.cls [39, 34] true)]), quoteC]

/-- Default-import regex `import\s+(\w+)\s+from\s+['"](@datadog/[^'"]+)['"]` (line 360). -/
def defaultImportRe : RE :=
  rcat [relit "import", wsPlus, .group 1 (rePlus .wordc), wsPlus, relit "from", wsPlus,
        quoteC, .group 2 (rcat [relit "@datadog/", rePlus (.cls [39, 34] true)]), quoteC]

/-- Namespace-import regex
`import\s+\*\s+as\s+(\w+)\s+from\s+['"](@datadog/[^'"]+)['"]` (line 362). -/
def namespaceImportRe : RE :=
  rcat [relit "import", wsPlus, .chr 42, wsPlus, relit "as", wsPlus,
        .group 1 (rePlus .wordc), wsPlus, relit "from", wsPlus, quoteC,
        .group 2 (rcat [relit "@datadog/", rePlus (.cls [39, 34] true)]), quoteC]

/-- The three import patterns of `_extract_imported_methods`, in order. -/
def importPatternList : List RE := [namedImportRe, defaultImportRe, namespaceImportRe]

/-- Per-file import information, the values of `imported_methods`. -/
structure MethodInfo where
  package : Str
  import_type : Str
  original_line : Str
deriving DecidableEq, Repr

/-- Ordered dict of imported methods. -/
abbrev MethodDict := List (Str × MethodInfo)

/-- Dict assignment for `imported_methods`. -/
def mdictSet (d : MethodDict) (k : Str) (v : MethodInfo) : MethodDict :=
  match d with
  | [] => [(k, v)]
  | p :: rest => if p.1 = k then (k, v) :: rest else p :: mdictSet rest k v

/-- Body of the per-line loop of `_extract_imported_methods`
(datadog_detector.py lines 354-387): each of the three import patterns is
searched in the line (case-insensitively); named imports are split on commas
and each entry is cut at the first ` as ` — binding the text before the
alias keyword — then stripped and recorded. -/
def processImportLine (d : MethodDict) (line : Str) : MethodDict :=
  importPatternList.foldl (fun d2 re =>
    match reSearch true re line with
    | none => d2
    | some m =>
      let imported_items := pyStrip ((matchGroup line m 1).getD [])
      let pkg := (matchGroup line m 2).getD []
      let methods : List Str :=
        if !(line.contains 123) || !(line.contains 125) then [pyStrip imported_items]
        else (imported_items.splitOn 44).map pyStrip
      methods.foldl (fun d3 mth =>
        let clean := pyStrip (beforeFirst (strOf " as ") mth)
        if clean.isEmpty then d3
        else mdictSet d3 clean
          { package := pkg,
            import_type := if line.contains 123 then strOf "named" else strOf "default",
            original_line := pyStrip line }) d2) d

/-- `_extract_imported_methods` (lines 349-389).  The `file_path` argument is
unused, as in the source. -/
def extractImportedMethods (content : Str) (_filePath : Str) : MethodDict :=
  (content.splitOn 10).foldl processImportLine []

/-- `_get_operation_type` (lines 159-172). -/
def getOperationType (pattern_type : Str) : DataDogOperationType :=
  if pattern_type = strOf "imports" then .IMPORT
  else if pattern_type = strOf "init" then .INIT
  else if pattern_type = strOf "rum_action" then .RUM_ACTION
  else if pattern_type = strOf "rum_error" then .RUM_ERROR
  else if pattern_type = strOf "rum_timing" then .RUM_TIMING
  else if pattern_type = strOf "log_info" then .LOG_INFO
  else if pattern_type = strOf "log_error" then .LOG_ERROR
  else if pattern_type = strOf "log_warn" then .LOG_WARN
  else if pattern_type = strOf "log_debug" then .LOG_DEBUG
  else .CUSTOM_ATTRIBUTE

/-- `_extract_data_from_line` (lines 174-243).  The `try` body of the `init`
branch consists of total string/regex operations, so the `except` arm that
would store `Could not parse configuration` is unreachable and not modelled.
All sub-pattern searches are case-sensitive, as in the source. -/
def extractDataFromLine (line : Str) (pattern_type : Str) : Dict :=
  if pattern_type = strOf "imports" then
    let d1 :=
      match searchGroup1 false importsItemsRe line with
      | some items => dictSet [] (strOf "imported_items") items
      | none => []
    match searchGroup1 false packageRe line with
    | some p => dictSet d1 (strOf "package") p
    | none => d1
  else if pattern_type = strOf "init" then
    match searchGroup1 false initConfigRe line with
    | none => []
    | some config_str =>
      let d1 := dictSet [] (strOf "configuration") config_str
      let d2 :=
        match searchGroup1 false appIdRe config_str with
        | some v => dictSet d1 (strOf "application_id") v
        | none => d1
      let d3 :=
        match searchGroup1 false clientTokenRe config_str with
        | some v => dictSet d2 (strOf "client_token") (v.take 10 ++ strOf "...")
        | none => d2
      match searchGroup1 false siteRe config_str with
      | some v => dictSet d3 (strOf "site") v
      | none => d3
  else if strStarts (strOf "rum_") pattern_type then
    match searchGroup1 false paramsRe line with
    | none => []
    | some params =>
      let d1 := dictSet [] (strOf "parameters") params
      if pattern_type = strOf "rum_action" then
        match searchGroup1 false strLitRe params with
        | some a => dictSet d1 (strOf "action_name") a
        | none => d1
      else if pattern_type = strOf "rum_error" then
        match searchGroup1 false strLitRe params with
        | some a => dictSet d1 (strOf "error_message") a
        | none => d1
      else d1
  else if strStarts (strOf "log_") pattern_type then
    match searchGroup1 false paramsRe line with
    | none => []
    | some params =>
      let d1 := dictSet [] (strOf "parameters") params
      match searchGroup1 false strLitRe params with
      | some msgv => dictSet d1 (strOf "log_message") msgv
      | none => d1
  else []

/-- The client-token capture of the `init` branch of
`_extract_data_from_line`: the configuration-object capture (line 190)
followed by the `clientToken` capture (line 202) inside it. -/
def clientTokenCaptured (line : Str) : Option Str :=
  match searchGroup1 false initConfigRe line with
  | none => none
  | some config_str => searchGroup1 false clientTokenRe config_str

/-- The user-action keyword list of `_categorise_data` (line 268). -/
def userActionKeywords : List Str :=
  [strOf "click", strOf "tap", strOf "swipe", strOf "scroll",
   strOf "input", strOf "select", strOf "submit"]

/-- `_categorise_data` (lines 245-275). -/
def categoriseData (data : Dict) (pattern_type : Str) : DataCategory :=
  if pattern_type = strOf "imports" then .CONFIGURATION_DATA
  else if pattern_type = strOf "init" then .CONFIGURATION_DATA
  else if pattern_type = strOf "rum_error" then .ERROR_DATA
  else if pattern_type = strOf "rum_timing" then .PERFORMANCE_DATA
  else if strStarts (strOf "log_error") pattern_type then .ERROR_DATA
  else if strStarts (strOf "log_") pattern_type then .SYSTEM_DATA
  else if pattern_type = strOf "rum_action" then
    let action_name := lowerStr (dictGetD data (strOf "action_name") [])
    if userActionKeywords.any (fun kw => inStr kw action_name) then .USER_DATA
    else .SYSTEM_DATA
  else .UNKNOWN

/-- `_extract_detailed_parameters` (lines 277-299). -/
def extractDetailedParameters (detailed : Bool) (line : Str) (_pattern_type : Str) :
    Option PDict :=
  if !detailed then none
  else
    match searchGroup1 false funcCallRe line with
    | none => none
    | some param_str =>
      let p1 := (reFindAll2 false kvRe param_str).foldl
        (fun d kv => pdictSet d kv.1 (.s (pyStrip kv.2))) []
      let strs := reFindAll1 false strLitRe param_str
      let p2 := if !strs.isEmpty then pdictSet p1 (strOf "string_literals") (.strList strs)
        else p1
      if p2.isEmpty then none else some p2

/-- Resolved-symbol call information, the dict built by `_find_method_calls`. -/
structure CallInfo where
  method_name : Str
  package : Str
  call_context : Str
  match_start : Nat
  match_end : Nat
  call_type : Str
deriving DecidableEq, Repr

/-- The three surface patterns of `_find_method_calls` (lines 396-403):
direct call, member call, and bare reference not followed by a colon. -/
def mkMethodPatterns (m : Str) : List RE :=
  [rcat [.wordB, reOfCodes m, wsStar, lp],
   rcat [.chr 46, wsStar, reOfCodes m, wsStar, lp],
   rcat [.wordB, reOfCodes m, .wordB, .nla (rcat [wsStar, .chr 58])]]

/-- Balanced-parenthesis scan of `_extract_call_context` (lines 432-442):
starting at the index of an opening parenthesis, find the index of the
matching closing parenthesis. -/
def parenScan : List Nat → Nat → Nat → Option Nat
  | [], _, _ => none
  | c :: rest, idx, count =>
    if c == 40 then parenScan rest (idx + 1) (count + 1)
    else if c == 41 then
      if count - 1 == 0 then some idx else parenScan rest (idx + 1) (count - 1)
    else parenScan rest (idx + 1) count

/-- `_extract_call_context` (lines 422-450). -/
def extractCallContext (line : Str) (start_pos : Nat) : Str :=
  match findCharFrom line 40 start_pos with
  | none => pyStrip line
  | some ps =>
    let pe := (parenScan (line.drop ps) ps 0).getD ps
    let method_start := start_pos - 10
    let call_end := min line.length (pe + 1)
    pyStrip (pySlice line method_start call_end)

/-- Python `s.split(c)[-1]`: the text after the last occurrence of `c`. -/
def afterLastChar (c : Nat) (s : Str) : Str :=
  match findCharLast s c with
  | some i => s.drop (i + 1)
  | none => s

/-- `_determine_call_type` (lines 452-464). -/
def determineCallType (line : Str) (match_start : Nat) : Str :=
  let before := pyStrip (line.take match_start)
  if before.getLast? == some 46 then strOf "method_call"
  else if before.contains 61 && (pyStrip (afterLastChar 61 before)).isEmpty then
    strOf "assignment"
  else if inStr (strOf "new ") (before.drop (before.length - 10)) then strOf "constructor"
  else strOf "function_call"

/-- `_find_method_calls` (lines 391-420). -/
def findMethodCalls (line : Str) (m : Str) (info : MethodInfo) : List CallInfo :=
  ((mkMethodPatterns m).map (fun re =>
    (reFindIter true re line).map (fun t =>
      { method_name := m
        package := info.package
        call_context := extractCallContext line t.1
        match_start := t.1
        match_end := t.2.1
        call_type := determineCallType line t.1 }))).flatten

/-- `_get_method_operation_type` (lines 513-546). -/
def getMethodOperationType (m pkg : Str) : DataDogOperationType :=
  let ml := lowerStr m
  if inStr (strOf "rum") (lowerStr pkg)
      || m ∈ [strOf "addAction", strOf "addError", strOf "addTiming"] then
    if inStr (strOf "action") ml then .RUM_ACTION
    else if inStr (strOf "error") ml then .RUM_ERROR
    else if inStr (strOf "timing") ml then .RUM_TIMING
    else .CUSTOM_ATTRIBUTE
  else if inStr (strOf "log") (lowerStr pkg)
      || m ∈ [strOf "logger", strOf "createLogger"] then
    if inStr (strOf "error") ml then .LOG_ERROR
    else if inStr (strOf "warn") ml then .LOG_WARN
    else if inStr (strOf "debug") ml then .LOG_DEBUG
    else if inStr (strOf "info") ml then .LOG_INFO
    else .LOG_INFO
  else if inStr (strOf "react") (lowerStr pkg)
      || m ∈ [strOf "reactPlugin", strOf "createBrowserRouter"] then .CONFIGURATION
  else .CUSTOM_ATTRIBUTE

/-- `_categorise_method_call` (lines 548-562). -/
def categoriseMethodCall (m pkg : Str) : DataCategory :=
  let ml := lowerStr m
  let pl := lowerStr pkg
  if inStr (strOf "error") ml || inStr (strOf "error") pl then .ERROR_DATA
  else if inStr (strOf "timing") ml || inStr (strOf "performance") ml then .PERFORMANCE_DATA
  else if inStr (strOf "action") ml
      && [strOf "click", strOf "tap", strOf "swipe", strOf "scroll",
          strOf "input"].any (fun kw => inStr kw ml) then .USER_DATA
  else if inStr (strOf "react") pl || inStr (strOf "plugin") ml then .CONFIGURATION_DATA
  else .SYSTEM_DATA

/-- `_extract_parameters_from_call` (lines 564-577). -/
def extractParametersFromCall (cc : Str) : Option Str :=
  match findCharFrom cc 40 0, findCharLast cc 41 with
  | some s, some e =>
    if s < e then
      let params := pyStrip (pySlice cc (s + 1) e)
      if params.isEmpty then none else some params
    else none
  | _, _ => none

/-- Detector configuration: the constructor arguments of `DataDogDetector`. -/
structure DetectorConfig where
  context_lines : Nat
  detailed_extraction : Bool
deriving DecidableEq, Repr

/-- Context-window slice shared by `_create_finding` (datadog_detector.py
lines 127-130) and `_get_context_lines` (base_detector.py lines 44-48):
`all_lines[max(0, L-R-1) : min(len, L+R)]`. -/
def getContextLines (R : Nat) (all_lines : List Str) (line_num : Nat) : List Str :=
  pySlice all_lines (line_num - R - 1) (min all_lines.length (line_num + R))

/-- `_create_finding` (lines 123-157). -/
def createFinding (cfg : DetectorConfig) (fp : Str) (line_num : Nat) (line : Str)
    (all_lines : List Str) (pattern_type pn url : Str) : DataDogFinding :=
  { file_path := fp
    line_number := line_num
    code_snippet := pyStrip line
    operation_type := getOperationType pattern_type
    data_being_sent := extractDataFromLine line pattern_type
    data_category := categoriseData (extractDataFromLine line pattern_type) pattern_type
    context_lines := getContextLines cfg.context_lines all_lines line_num
    github_url := url
    project_name := pn
    extracted_parameters :=
      if cfg.detailed_extraction then
        extractDetailedParameters cfg.detailed_extraction line pattern_type
      else none }

/-- `_create_method_call_finding` (lines 466-511). -/
def createMethodCallFinding (cfg : DetectorConfig) (fp : Str) (line_num : Nat) (line : Str)
    (all_lines : List Str) (ci : CallInfo) (pn url : Str) : DataDogFinding :=
  let d0 : Dict :=
    [(strOf "method_name", ci.method_name),
     (strOf "package", ci.package),
     (strOf "call_context", ci.call_context),
     (strOf "call_type", ci.call_type)]
  let d1 :=
    if ci.call_type = strOf "function_call" || ci.call_type = strOf "method_call" then
      match extractParametersFromCall ci.call_context with
      | some p => dictSet d0 (strOf "parameters") p
      | none => d0
    else d0
  { file_path := fp
    line_number := line_num
    code_snippet := pyStrip line
    operation_type := getMethodOperationType ci.method_name ci.package
    data_being_sent := d1
    data_category := categoriseMethodCall ci.method_name ci.package
    context_lines := getContextLines cfg.context_lines all_lines line_num
    github_url := url
    project_name := pn
    extracted_parameters :=
      if cfg.detailed_extraction then
        extractDetailedParameters cfg.detailed_extraction line (strOf "method_call")
      else none }

/-- Decimal digits of a line number, for the `f"{file_path}:{line_num}"` key. -/
def natToStr (n : Nat) : Str := (Nat.toDigits 10 n).map Char.toNat

/-- The `line_key` string of `detect_datadog_usage` (line 93). -/
def lineKey (fp : Str) (n : Nat) : Str := fp ++ [58] ++ natToStr n

/-- Set insertion for `processed_lines` (a Python `set`). -/
def setAdd (s : List Str) (k : Str) : List Str := if k ∈ s then s else k :: s

/-- The direct-pattern findings of one line (lines 96-105): every pattern of
every group that matches the line contributes one finding, in table order. -/
def directFindings (cfg : DetectorConfig) (fp : Str) (line_num : Nat) (line : Str)
    (all_lines : List Str) (pn url : Str) : List DataDogFinding :=
  (patternsTable.map (fun pt =>
    pt.2.filterMap (fun re =>
      if (reSearch true re line).isSome then
        some (createFinding cfg fp line_num line all_lines pt.1 pn url)
      else none))).flatten

/-- The resolved-symbol findings of one line (lines 108-118): for each
imported method, in dict order, each surface-pattern match contributes one
finding. -/
def methodCallFindings (cfg : DetectorConfig) (fp : Str) (line_num : Nat) (line : Str)
    (all_lines : List Str) (imported : MethodDict) (pn url : Str) : List DataDogFinding :=
  (imported.map (fun mi =>
    (findMethodCalls line mi.1 mi.2).map (fun ci =>
      createMethodCallFinding cfg fp line_num line all_lines ci pn url))).flatten

/-- The per-line loop of `detect_datadog_usage` (lines 92-118): direct
patterns first, each created finding adding the line key to
`processed_lines`; then, only if the key is still absent, the resolved
imported-method pass. -/
def detectGo (cfg : DetectorConfig) (fp : Str) (all_lines : List Str)
    (imported : MethodDict) (pn url : Str) :
    Nat → List Str → List Str → List Str × List DataDogFinding
  | _, processed, [] => (processed, [])
  | n, processed, line :: rest =>
    let lk := lineKey fp n
    let direct := directFindings cfg fp n line all_lines pn url
    let processed2 := direct.foldl (fun s _ => setAdd s lk) processed
    let mcalls :=
      if lk ∈ processed2 then []
      else methodCallFindings cfg fp n line all_lines imported pn url
    let processed3 := mcalls.foldl (fun s _ => setAdd s lk) processed2
    let tail := detectGo cfg fp all_lines imported pn url (n + 1) processed3 rest
    (tail.1, direct ++ mcalls ++ tail.2)

/-- `detect_datadog_usage` (lines 79-121). -/
def detectDatadogUsage (cfg : DetectorConfig) (fp content pn url : Str) :
    List DataDogFinding :=
  let lines := content.splitOn 10
  let imported := extractImportedMethods content fp
  deduplicateFindings (detectGo cfg fp lines imported pn url 1 [] lines).2

/-- The detector object: constructor state of `DataDogDetector.__init__`
(datadog_detector.py lines 14-18).  `imported_datadog_methods` is the only
mutable instance attribute besides the configuration; the compiled pattern
table is immutable and captured by the functions above. -/
structure PyDataDogDetector where
  context_lines : Nat
  detailed_extraction : Bool
  imported_datadog_methods : MethodDict
deriving DecidableEq, Repr

/-- The `detect_datadog_usage` method as a state transformer on the detector
object.  The method body never reads or writes `imported_datadog_methods`
(its first pass calls `_extract_imported_methods`, which builds and returns
a fresh local dict), so the state is returned unchanged. -/
def detectMethod (d : PyDataDogDetector) (fp content pn url : Str) :
    List DataDogFinding × PyDataDogDetector :=
  (detectDatadogUsage { context_lines := d.context_lines,
                        detailed_extraction := d.detailed_extraction }
    fp content pn url, d)

/-- Keyword list of `_has_datadog_content` (code_scanner.py lines 276-281). -/
def datadogKeywords : List Str :=
  [strOf "datadog", strOf "DD_RUM", strOf "browser-rum", strOf "browser-logs",
   strOf "addAction", strOf "addError", strOf "addTiming", strOf "datadogRum",
   strOf "datadogLogs", strOf "logger.info", strOf "logger.error"]

/-- `_has_datadog_content` (code_scanner.py lines 274-283). -/
def hasDatadogContent (content : Str) : Bool :=
  let cl := lowerStr content
  datadogKeywords.any (fun kw => inStr (lowerStr kw) cl)

/-- One dispatched file of the Scan Orchestrator.  `readResult = none` models
`_read_file_content` failing (unreadable or undecodable file), and
`detectorRaises` models an exception escaping the detector inside
`_scan_file`'s `try` block; both collaborator outcomes are inputs of the
embedding, the control flow around them is code_scanner.py lines 201-246. -/
structure FileTask where
  file_path : Str
  project_name : Str
  base_url : Str
  readResult : Option Str
  detectorRaises : Bool

/-- `_scan_file` (code_scanner.py lines 201-246): a `None` or empty read
yields no findings, content without Datadog keywords yields no findings, an
exception is caught and yields no findings, and otherwise the detector runs
and each finding's location link is backfilled with its line number. -/
def scanFile (cfg : DetectorConfig) (linkFn : Str → Nat → Str) (t : FileTask) :
    List DataDogFinding :=
  if t.detectorRaises then []
  else
    match t.readResult with
    | none => []
    | some c =>
      if c.isEmpty then []
      else if !hasDatadogContent c then []
      else
        (detectDatadogUsage cfg t.file_path c t.project_name t.base_url).map
          (fun f => { f with github_url := linkFn t.file_path f.line_number })

/-- `_scan_project`'s result collection (code_scanner.py lines 142-159):
every file's findings are appended to the project list; a failed file
contributes the empty list.  The worker pool hands results back in
completion order; the list order models one such order. -/
def scanProject (cfg : DetectorConfig) (linkFn : Str → Nat → Str)
    (tasks : List FileTask) : List DataDogFinding :=
  (tasks.map (scanFile cfg linkFn)).flatten

/-! ### Concrete inputs used by witnesses and counterexamples -/

/-- The default detector configuration of the orchestrator
(context radius 3, detailed extraction off). -/
def cfgDefault : DetectorConfig := { context_lines := 3, detailed_extraction := false }

/-- A plain candidate finding without resolved-symbol data. -/
def findingPlain : DataDogFinding :=
  { file_path := strOf "a.ts", line_number := 1, code_snippet := strOf "x",
    operation_type := .IMPORT, data_being_sent := [],
    data_category := .CONFIGURATION_DATA, context_lines := [],
    github_url := strOf "u", project_name := strOf "p",
    extracted_parameters := none }

/-- A candidate for the same line carrying resolved-symbol data. -/
def findingResolved : DataDogFinding :=
  { findingPlain with
    operation_type := .RUM_ACTION,
    data_being_sent := [(strOf "method_name", strOf "addAction")],
    data_category := .SYSTEM_DATA }

/-- A file task whose detector raises (for the failure-isolation witness). -/
def taskFailing : FileTask :=
  { file_path := strOf "bad.ts", project_name := strOf "p", base_url := strOf "u",
    readResult := some (strOf "datadogRum.init(\x7b applicationId: 'a' \x7d);"),
    detectorRaises := true }

/-- A healthy file task containing one Datadog call. -/
def taskHealthy : FileTask :=
  { file_path := strOf "good.ts", project_name := strOf "p", base_url := strOf "u",
    readResult := some (strOf "datadogRum.addAction('button-click');"),
    detectorRaises := false }

/-! ### Properties of deduplication -/

/-- Setting an index to the value it already holds leaves a list unchanged. -/
theorem set_get?_self {α : Type _} :
    ∀ (l : List α) (i : Nat) (a : α), l.get? i = some a → l.set i a = l
  | [], _, _, h => by simp at h
  | x :: xs, 0, a, h => by
    simp only [List.get?] at h
    simp [Option.some_inj.mp h]
  | x :: xs, i + 1, a, h => by
    simp only [List.get?] at h
    simp [set_get?_self xs i a h]

/-- Keys absent from the accumulator make the linear search fail. -/
theorem findIdxOfKey_eq_none {acc : List DataDogFinding} {k : Str × Nat}
    (h : k ∉ acc.map findingKey) : findIdxOfKey acc k = none := by
  induction acc with
  | nil => rfl
  | cons a l ih =>
    simp only [List.map_cons, List.mem_cons, not_or] at h
    have hne : ¬(findingKey a = k) := fun he => h.1 he.symm
    simp [findIdxOfKey, hne, ih h.2]

/-- A successful linear search returns an element of the searched key. -/
theorem findIdxOfKey_spec {acc : List DataDogFinding} {k : Str × Nat} {i : Nat}
    (h : findIdxOfKey acc k = some i) :
    ∃ e, acc.get? i = some e ∧ findingKey e = k := by
  induction acc generalizing i with
  | nil => simp [findIdxOfKey] at h
  | cons a l ih =>
    by_cases ha : findingKey a = k
    · simp only [findIdxOfKey, ha, if_pos, Option.some_inj] at h
      exact ⟨a, by simp [← h], ha⟩
    · rw [findIdxOfKey, if_neg ha] at h
      cases hj : findIdxOfKey l k with
      | none => rw [hj] at h; simp at h
      | some j =>
        rw [hj, Option.map_some'] at h
        obtain ⟨e, he, hk⟩ := ih hj
        refine ⟨e, ?_, hk⟩
        rw [← Option.some_inj.mp h]
        simpa using he

/-- A present key makes the linear search succeed. -/
theorem findIdxOfKey_isSome {acc : List DataDogFinding} {k : Str × Nat}
    (h : k ∈ acc.map findingKey) : (findIdxOfKey acc k).isSome = true := by
  induction acc with
  | nil => simp at h
  | cons a l ih =>
    by_cases ha : findingKey a = k
    · simp [findIdxOfKey, ha]
    · simp only [List.map_cons, List.mem_cons] at h
      rcases h with h | h
      · exact absurd h.symm ha
      · simp [findIdxOfKey, ha, ih h]

/-- A fresh key is appended by the spec-level step. -/
theorem dedupStep_not_mem {acc : List DataDogFinding} {f : DataDogFinding}
    (h : findingKey f ∉ acc.map findingKey) : dedupStep acc f = acc ++ [f] := by
  simp [dedupStep, findIdxOfKey_eq_none h]

/-- An existing key leaves the key sequence of the accumulator unchanged. -/
theorem keys_dedupStep_mem {acc : List DataDogFinding} {f : DataDogFinding}
    (h : findingKey f ∈ acc.map findingKey) :
    (dedupStep acc f).map findingKey = acc.map findingKey := by
  have hsome := findIdxOfKey_isSome h
  cases hfi : findIdxOfKey acc (findingKey f) with
  | none => rw [hfi] at hsome; simp at hsome
  | some i =>
    obtain ⟨e, he, hke⟩ := findIdxOfKey_spec hfi
    simp only [dedupStep, hfi, he]
    by_cases hr : richerThan f e
    · rw [if_pos hr, List.map_set]
      apply set_get?_self
      rw [List.get?_map, he, Option.map_some', hke]
    · rw [if_neg hr]

/-- Every finding kept by the spec-level step comes from the accumulator or
is the new candidate. -/
theorem mem_dedupStep {acc : List DataDogFinding} {f x : DataDogFinding}
    (h : x ∈ dedupStep acc f) : x ∈ acc ∨ x = f := by
  cases hfi : findIdxOfKey acc (findingKey f) with
  | none =>
    simp only [dedupStep, hfi] at h
    simpa using h
  | some i =>
    cases he : acc.get? i with
    | none => simp only [dedupStep, hfi, he] at h; exact Or.inl h
    | some e =>
      simp only [dedupStep, hfi, he] at h
      by_cases hr : richerThan f e
      · rw [if_pos hr] at h
        exact List.mem_or_eq_of_mem_set h
      · rw [if_neg hr] at h
        exact Or.inl h

/-- Under the loop invariant, the source loop computes the spec-level fold. -/
theorem dedupGo_eq_foldl {seen : List (Str × Nat)} {acc : List DataDogFinding}
    (l : List DataDogFinding) (hinv : SeenInv seen acc) :
    dedupGo seen acc l = l.foldl dedupStep acc := by
  induction l generalizing seen acc with
  | nil => rfl
  | cons f rest ih =>
    rw [List.foldl_cons]
    by_cases hk : findingKey f ∈ seen
    · have hmem : findingKey f ∈ acc.map findingKey := (hinv _).mp hk
      have hsome := findIdxOfKey_isSome hmem
      cases hfi : findIdxOfKey acc (findingKey f) with
      | none => rw [hfi] at hsome; simp at hsome
      | some i =>
        obtain ⟨e, he, hke⟩ := findIdxOfKey_spec hfi
        have hstep : dedupStep acc f = if richerThan f e then acc.set i f else acc := by
          simp only [dedupStep, hfi, he]
        have hgo : dedupGo seen acc (f :: rest) =
            if richerThan f e then dedupGo seen (acc.set i f) rest
            else dedupGo seen acc rest := by
          simp only [dedupGo, if_pos hk, hfi, he]
        rw [hgo, hstep]
        by_cases hr : richerThan f e
        · rw [if_pos hr, if_pos hr]
          apply ih
          intro k2
          have hkeys : (acc.set i f).map findingKey = acc.map findingKey := by
            rw [List.map_set]
            apply set_get?_self
            rw [List.get?_map, he, Option.map_some', hke]
          rw [hkeys]
          exact hinv k2
        · rw [if_neg hr, if_neg hr]
          exact ih hinv
    · have hmem : findingKey f ∉ acc.map findingKey := fun hc => hk ((hinv _).mpr hc)
      have hgo : dedupGo seen acc (f :: rest) =
          dedupGo (findingKey f :: seen) (acc ++ [f]) rest := by
        simp only [dedupGo, if_neg hk]
      rw [hgo, dedupStep_not_mem hmem]
      apply ih
      intro k2
      simp only [List.mem_cons, List.map_append, List.mem_append, List.map_cons,
        List.map_nil, List.mem_singleton]
      rw [hinv k2]
      tauto

/-- `_deduplicate_findings` is the left fold of the spec-level step. -/
theorem deduplicateFindings_eq_foldl (l : List DataDogFinding) :
    deduplicateFindings l = l.foldl dedupStep [] :=
  dedupGo_eq_foldl l (by intro k; simp)

/-- Elements of the fold come from the accumulator or the input. -/
theorem mem_foldl_dedupStep {l : List DataDogFinding} {acc : List DataDogFinding}
    {x : DataDogFinding} (h : x ∈ l.foldl dedupStep acc) : x ∈ acc ∨ x ∈ l := by
  induction l generalizing acc with
  | nil => exact Or.inl (by simpa using h)
  | cons f rest ih =>
    rw [List.foldl_cons] at h
    rcases ih h with h2 | h2
    · rcases mem_dedupStep h2 with h3 | h3
      · exact Or.inl h3
      · exact Or.inr (by simp [h3])
    · exact Or.inr (by simp [h2])

/-- Key sequence of the fold: the accumulator keys followed by a
duplicate-free subsequence of the input keys. -/
theorem keys_foldl_dedupStep {l acc : List DataDogFinding}
    (hn : (acc.map findingKey).Nodup) :
    ∃ d, (l.foldl dedupStep acc).map findingKey = acc.map findingKey ++ d ∧
      d.Sublist (l.map findingKey) ∧ (acc.map findingKey ++ d).Nodup := by
  induction l generalizing acc with
  | nil => exact ⟨[], by simp, by simp, by simpa⟩
  | cons f rest ih =>
    rw [List.foldl_cons]
    by_cases hm : findingKey f ∈ acc.map findingKey
    · obtain ⟨d, hd1, hd2, hd3⟩ :=
        @ih (dedupStep acc f) (by rw [keys_dedupStep_mem hm]; exact hn)
      rw [keys_dedupStep_mem hm] at hd1 hd3
      exact ⟨d, hd1, hd2.cons _, hd3⟩
    · have hn2 : ((acc ++ [f]).map findingKey).Nodup := by
        simp only [List.map_append, List.map_cons, List.map_nil]
        rw [List.nodup_append]
        refine ⟨hn, List.nodup_singleton _, ?_⟩
        intro a ha hb
        simp only [List.mem_singleton] at hb
        exact hm (hb ▸ ha)
      rw [dedupStep_not_mem hm]
      obtain ⟨d, hd1, hd2, hd3⟩ := @ih (acc ++ [f]) hn2
      refine ⟨findingKey f :: d, ?_, ?_, ?_⟩
      · rw [hd1]; simp
      · simpa using hd2.cons₂ (findingKey f)
      · simpa using hd3

/-- A fold whose input keys are globally duplicate-free appends the input. -/
theorem foldl_dedupStep_nodup {l acc : List DataDogFinding}
    (hn : (acc.map findingKey ++ l.map findingKey).Nodup) :
    l.foldl dedupStep acc = acc ++ l := by
  induction l generalizing acc with
  | nil => simp
  | cons f rest ih =>
    have hm : findingKey f ∉ acc.map findingKey := by
      rw [List.nodup_append] at hn
      intro hc
      exact hn.2.2 hc (by simp)
    rw [List.foldl_cons, dedupStep_not_mem hm]
    have hn2 : ((acc ++ [f]).map findingKey ++ rest.map findingKey).Nodup := by
      simpa [List.append_assoc] using hn
    rw [ih hn2]
    simp

/-- The deduplicated key sequence: a duplicate-free subsequence of the
candidate key sequence. -/
theorem keys_deduplicateFindings (l : List DataDogFinding) :
    ((deduplicateFindings l).map findingKey).Sublist (l.map findingKey) ∧
      ((deduplicateFindings l).map findingKey).Nodup := by
  rw [deduplicateFindings_eq_foldl]
  obtain ⟨d, h1, h2, h3⟩ := @keys_foldl_dedupStep l [] (by simp)
  simp only [List.map_nil, List.nil_append] at h1 h3
  rw [h1]
  exact ⟨h2, h3⟩

/-- Deduplication only keeps candidates. -/
theorem mem_deduplicateFindings {l : List DataDogFinding} {x : DataDogFinding}
    (h : x ∈ deduplicateFindings l) : x ∈ l := by
  rw [deduplicateFindings_eq_foldl] at h
  rcases mem_foldl_dedupStep h with h2 | h2
  · simp at h2
  · exact h2

/-! ### Structure of the candidate stream of `detect_datadog_usage` -/

/-- Direct-pattern candidates carry the line number and file path of the
line that produced them. -/
theorem mem_directFindings {cfg : DetectorConfig} {fp : Str} {n : Nat} {line : Str}
    {all_lines : List Str} {pn url : Str} {f : DataDogFinding}
    (h : f ∈ directFindings cfg fp n line all_lines pn url) :
    f.line_number = n ∧ f.file_path = fp := by
  simp only [directFindings, List.mem_flatten, List.mem_map] at h
  obtain ⟨l, ⟨pt, hpt, hl⟩, hf⟩ := h
  rw [← hl, List.mem_filterMap] at hf
  obtain ⟨re, hre, hsome⟩ := hf
  by_cases hs : (reSearch true re line).isSome
  · rw [if_pos hs, Option.some_inj] at hsome
    rw [← hsome]
    exact ⟨rfl, rfl⟩
  · rw [if_neg hs] at hsome
    exact absurd hsome (by simp)

/-- Resolved-symbol candidates carry the line number and file path of the
line that produced them. -/
theorem mem_methodCallFindings {cfg : DetectorConfig} {fp : Str} {n : Nat} {line : Str}
    {all_lines : List Str} {imported : MethodDict} {pn url : Str} {f : DataDogFinding}
    (h : f ∈ methodCallFindings cfg fp n line all_lines imported pn url) :
    f.line_number = n ∧ f.file_path = fp := by
  simp only [methodCallFindings, List.mem_flatten, List.mem_map] at h
  obtain ⟨l, ⟨mi, hmi, hl⟩, hf⟩ := h
  rw [← hl, List.mem_map] at hf
  obtain ⟨ci, hci, hf⟩ := hf
  rw [← hf]
  exact ⟨rfl, rfl⟩

/-- Every candidate produced from line `n` onwards has its line number in
`[n, n + number of remaining lines)` and the file path of the call. -/
theorem detectGo_mem {cfg : DetectorConfig} {fp : Str} {all_lines : List Str}
    {imported : MethodDict} {pn url : Str} :
    ∀ {ls : List Str} {n : Nat} {processed : List Str} {f : DataDogFinding},
    f ∈ (detectGo cfg fp all_lines imported pn url n processed ls).2 →
    f.file_path = fp ∧ n ≤ f.line_number ∧ f.line_number < n + ls.length := by
  intro ls
  induction ls with
  | nil => intro n processed f h; simp [detectGo] at h
  | cons line rest ih =>
    intro n processed f h
    simp only [detectGo, List.mem_append] at h
    rcases h with (h | h) | h
    · obtain ⟨h1, h2⟩ := mem_directFindings h
      refine ⟨h2, by omega, ?_⟩
      simp only [List.length_cons]
      omega
    · by_cases hp : lineKey fp n ∈
        (directFindings cfg fp n line all_lines pn url).foldl
          (fun s _ => setAdd s (lineKey fp n)) processed
      · rw [if_pos hp] at h; simp at h
      · rw [if_neg hp] at h
        obtain ⟨h1, h2⟩ := mem_methodCallFindings h
        refine ⟨h2, by omega, ?_⟩
        simp only [List.length_cons]
        omega
    · obtain ⟨h1, h2, h3⟩ := ih h
      refine ⟨h1, by omega, ?_⟩
      simp only [List.length_cons]
      omega

/-- A constant-line block of candidates. -/
theorem lineBlock_mem {cfg : DetectorConfig} {fp : Str} {n : Nat} {line : Str}
    {all_lines : List Str} {imported : MethodDict} {pn url : Str}
    {processed2 : List Str} {f : DataDogFinding}
    (h : f ∈ directFindings cfg fp n line all_lines pn url ++
      (if lineKey fp n ∈ processed2 then []
       else methodCallFindings cfg fp n line all_lines imported pn url)) :
    f.line_number = n := by
  rw [List.mem_append] at h
  rcases h with h | h
  · exact (mem_directFindings h).1
  · by_cases hp : lineKey fp n ∈ processed2
    · rw [if_pos hp] at h; simp at h
    · rw [if_neg hp] at h
      exact (mem_methodCallFindings h).1

/-- The candidate stream is produced in ascending line order. -/
theorem detectGo_pairwise {cfg : DetectorConfig} {fp : Str} {all_lines : List Str}
    {imported : MethodDict} {pn url : Str} :
    ∀ {ls : List Str} {n : Nat} {processed : List Str},
    List.Pairwise (fun a b => a.line_number ≤ b.line_number)
      (detectGo cfg fp all_lines imported pn url n processed ls).2 := by
  intro ls
  induction ls with
  | nil => intro n processed; simp [detectGo]
  | cons line rest ih =>
    intro n processed
    simp only [detectGo]
    rw [List.pairwise_append]
    refine ⟨?_, ih, ?_⟩
    · apply List.pairwise_of_forall_mem_list
      intro a ha b hb
      rw [lineBlock_mem ha, lineBlock_mem hb]
    · intro a ha b hb
      rw [lineBlock_mem ha]
      have := (detectGo_mem hb).2.1
      omega

/-! ### Findings returned by `detect_datadog_usage` -/

/-- Unfolding of `detect_datadog_usage` into its loop and deduplication. -/
theorem detect_eq (cfg : DetectorConfig) (fp content pn url : Str) :
    detectDatadogUsage cfg fp content pn url =
      deduplicateFindings
        (detectGo cfg fp (content.splitOn 10) (extractImportedMethods content fp) pn url
          1 [] (content.splitOn 10)).2 := rfl

/-- Every returned finding carries the file path and a line number within
the file. -/
theorem detect_out_mem {cfg : DetectorConfig} {fp content pn url : Str}
    {x : DataDogFinding} (h : x ∈ detectDatadogUsage cfg fp content pn url) :
    x.file_path = fp ∧ 1 ≤ x.line_number ∧ x.line_number ≤ (content.splitOn 10).length := by
  rw [detect_eq] at h
  obtain ⟨h1, h2, h3⟩ := detectGo_mem (mem_deduplicateFindings h)
  exact ⟨h1, h2, by omega⟩

/-- The returned findings have pairwise distinct deduplication keys. -/
theorem detect_keys_pairwise (cfg : DetectorConfig) (fp content pn url : Str) :
    List.Pairwise (fun a b => findingKey a ≠ findingKey b)
      (detectDatadogUsage cfg fp content pn url) := by
  rw [detect_eq]
  have h := (keys_deduplicateFindings
    (detectGo cfg fp (content.splitOn 10) (extractImportedMethods content fp) pn url
      1 [] (content.splitOn 10)).2).2
  rw [List.Nodup, List.pairwise_map] at h
  exact h

/-- The returned line numbers are pairwise distinct. -/
theorem detect_lines_nodup (cfg : DetectorConfig) (fp content pn url : Str) :
    ((detectDatadogUsage cfg fp content pn url).map DataDogFinding.line_number).Nodup := by
  rw [List.Nodup, List.pairwise_map]
  apply List.Pairwise.imp_of_mem ?_ (detect_keys_pairwise cfg fp content pn url)
  intro a b ha hb hk he
  apply hk
  have hfa := (detect_out_mem ha).1
  have hfb := (detect_out_mem hb).1
  unfold findingKey
  rw [hfa, hfb, he]

/-- Projecting keys to their second component gives the line numbers. -/
theorem map_snd_findingKey (l : List DataDogFinding) :
    (l.map findingKey).map Prod.snd = l.map DataDogFinding.line_number := by
  rw [List.map_map]
  rfl

/-- The returned line numbers are sorted. -/
theorem detect_lines_sorted (cfg : DetectorConfig) (fp content pn url : Str) :
    List.Sorted (· ≤ ·)
      ((detectDatadogUsage cfg fp content pn url).map DataDogFinding.line_number) := by
  rw [detect_eq]
  have hsub := (keys_deduplicateFindings
    (detectGo cfg fp (content.splitOn 10) (extractImportedMethods content fp) pn url
      1 [] (content.splitOn 10)).2).1
  have hsub2 := hsub.map Prod.snd
  rw [map_snd_findingKey, map_snd_findingKey] at hsub2
  have hpair : List.Pairwise (· ≤ ·)
      (((detectGo cfg fp (content.splitOn 10) (extractImportedMethods content fp) pn url
        1 [] (content.splitOn 10)).2).map DataDogFinding.line_number) := by
    rw [List.pairwise_map]
    exact detectGo_pairwise
  exact List.Pairwise.sublist hsub2 hpair

/-- A duplicate-free list of positive naturals bounded by `N` has at most
`N` elements. -/
theorem nodup_bounded_length_le {l : List Nat} {N : Nat} (h : l.Nodup)
    (hm : ∀ x ∈ l, 1 ≤ x ∧ x ≤ N) : l.length ≤ N := by
  have h1 : l.toFinset ⊆ Finset.Icc 1 N := by
    intro x hx
    rw [List.mem_toFinset] at hx
    simpa [Finset.mem_Icc] using hm x hx
  have h2 := Finset.card_le_card h1
  rw [List.toFinset_card_of_nodup h] at h2
  simpa [Nat.card_Icc] using h2

/-! ### Claim theorems -/

/-- C2.  For every list of candidate Findings produced from a single file of
`N` lines, the list returned by deduplication (and hence by
`detect_datadog_usage`) contains at most one Finding per
`(file_path, line_number)` pair, so the number of Findings returned for that
file is at most `N`. -/
theorem detect_at_most_one_finding_per_line (cfg : DetectorConfig)
    (fp content pn url : Str) :
    List.Pairwise (fun a b => findingKey a ≠ findingKey b)
      (detectDatadogUsage cfg fp content pn url) ∧
    (detectDatadogUsage cfg fp content pn url).length ≤ (content.splitOn 10).length := by
  refine ⟨detect_keys_pairwise cfg fp content pn url, ?_⟩
  have hlen : (detectDatadogUsage cfg fp content pn url).length =
      ((detectDatadogUsage cfg fp content pn url).map DataDogFinding.line_number).length := by
    rw [List.length_map]
  rw [hlen]
  apply nodup_bounded_length_le (detect_lines_nodup cfg fp content pn url)
  intro x hx
  rw [List.mem_map] at hx
  obtain ⟨f, hf, rfl⟩ := hx
  exact (detect_out_mem hf).2

/-- C5.  Deduplication keeps the first candidate for each
`(file_path, line_number)` key by default, and a later candidate replaces
the kept one exactly when `richerThan` holds — a strictly longer serialized
extracted-data payload, or a `method_name` key the kept candidate lacks:
the source loop equals the fold of `dedupStep`, and on a two-candidate
clash the replacement happens if and only if `richerThan` holds. -/
theorem dedup_replacement_policy :
    (∀ l : List DataDogFinding, deduplicateFindings l = l.foldl dedupStep []) ∧
    (∀ f g : DataDogFinding, findingKey f = findingKey g →
      deduplicateFindings [f, g] = if richerThan g f then [g] else [f]) ∧
    (∀ f g : DataDogFinding, findingKey f ≠ findingKey g →
      deduplicateFindings [f, g] = [f, g]) := by
  refine ⟨deduplicateFindings_eq_foldl, ?_, ?_⟩
  · intro f g hk
    rw [deduplicateFindings_eq_foldl]
    have h1 : dedupStep [] f = [f] := dedupStep_not_mem (by simp)
    have h2 : findIdxOfKey [f] (findingKey g) = some 0 := by
      simp [findIdxOfKey, hk]
    simp only [List.foldl_cons, List.foldl_nil, h1]
    simp only [dedupStep, h2]
    rfl
  · intro f g hk
    rw [deduplicateFindings_eq_foldl]
    have h1 : dedupStep [] f = [f] := dedupStep_not_mem (by simp)
    have h2 : dedupStep [f] g = [f] ++ [g] :=
      dedupStep_not_mem (by simpa using fun he => hk he.symm)
    simp only [List.foldl_cons, List.foldl_nil, h1, h2]
    rfl

/-- C5 witness: on a concrete clash the resolved-symbol candidate replaces
the plain one, and the plain one does not replace the resolved one. -/
theorem dedup_replacement_policy_witness :
    deduplicateFindings [findingPlain, findingResolved] = [findingResolved] ∧
    deduplicateFindings [findingResolved, findingPlain] = [findingResolved] := by
  constructor
  · rw [dedup_replacement_policy.2.1 findingPlain findingResolved (by decide)]
    decide
  · rw [dedup_replacement_policy.2.1 findingResolved findingPlain (by decide)]
    decide

/-- C10.  Deduplication is idempotent: applied to its own output it returns
the output unchanged, and any list with at most one finding per key passes
through unmodified. -/
theorem dedup_idempotent :
    (∀ l : List DataDogFinding,
      deduplicateFindings (deduplicateFindings l) = deduplicateFindings l) ∧
    (∀ l : List DataDogFinding, (l.map findingKey).Nodup →
      deduplicateFindings l = l) := by
  have hpass : ∀ l : List DataDogFinding, (l.map findingKey).Nodup →
      deduplicateFindings l = l := by
    intro l hn
    rw [deduplicateFindings_eq_foldl]
    have := @foldl_dedupStep_nodup l [] (by simpa using hn)
    simpa using this
  refine ⟨fun l => hpass _ (keys_deduplicateFindings l).2, hpass⟩

/-- C10 witness: a concrete two-line list with distinct keys passes through
deduplication unchanged, and deduplication of a deduplicated list is the
identity there. -/
theorem dedup_idempotent_witness :
    deduplicateFindings [findingPlain, { findingPlain with line_number := 2 }] =
      [findingPlain, { findingPlain with line_number := 2 }] ∧
    deduplicateFindings
        (deduplicateFindings [findingPlain, { findingPlain with line_number := 2 }]) =
      deduplicateFindings [findingPlain, { findingPlain with line_number := 2 }] :=
  ⟨dedup_idempotent.2 [findingPlain, { findingPlain with line_number := 2 }] (by decide),
   dedup_idempotent.1 [findingPlain, { findingPlain with line_number := 2 }]⟩

/-- C6.  Within one file the findings returned by `detect_datadog_usage`
are in ascending `line_number` order (strictly, since keys are distinct). -/
theorem detect_ascending_line_order (cfg : DetectorConfig) (fp content pn url : Str) :
    List.Sorted (· < ·)
      ((detectDatadogUsage cfg fp content pn url).map DataDogFinding.line_number) := by
  have hle := detect_lines_sorted cfg fp content pn url
  have hne := detect_lines_nodup cfg fp content pn url
  have := List.Pairwise.and hle hne
  apply this.imp
  intro a b hab
  omega

/-- C7.  The per-file detection result depends only on the call arguments
and the detector configuration: the mutable `imported_datadog_methods`
state is neither read nor written, so any two invocations with identical
arguments — in particular two consecutive ones — return identical finding
lists. -/
theorem detect_deterministic (d : PyDataDogDetector) (fp content pn url : Str) :
    (detectMethod d fp content pn url).2 = d ∧
    (detectMethod d fp content pn url).1 =
      detectDatadogUsage
        { context_lines := d.context_lines, detailed_extraction := d.detailed_extraction }
        fp content pn url ∧
    (detectMethod (detectMethod d fp content pn url).2 fp content pn url).1 =
      (detectMethod d fp content pn url).1 ∧
    (∀ d2 : PyDataDogDetector, d2.context_lines = d.context_lines →
      d2.detailed_extraction = d.detailed_extraction →
      (detectMethod d2 fp content pn url).1 = (detectMethod d fp content pn url).1) := by
  refine ⟨rfl, rfl, rfl, ?_⟩
  intro d2 h1 h2
  simp [detectMethod, h1, h2]

/-- C7 witness: two detector objects differing only in their mutable
imported-methods state produce the same findings on a concrete file. -/
theorem detect_deterministic_witness :
    (detectMethod
        { context_lines := 3, detailed_extraction := false,
          imported_datadog_methods :=
            [(strOf "stale", { package := strOf "@datadog/browser-rum",
                               import_type := strOf "named",
                               original_line := strOf "old" })] }
        (strOf "a.ts") (strOf "datadogRum.addAction('go');") (strOf "p") (strOf "u")).1 =
      (detectMethod
        { context_lines := 3, detailed_extraction := false,
          imported_datadog_methods := [] }
        (strOf "a.ts") (strOf "datadogRum.addAction('go');") (strOf "p") (strOf "u")).1 :=
  (detect_deterministic
    { context_lines := 3, detailed_extraction := false, imported_datadog_methods := [] }
    (strOf "a.ts") (strOf "datadogRum.addAction('go');") (strOf "p")
    (strOf "u")).2.2.2 _ rfl rfl

/-- C4.  For a match at 1-based line `L` with radius `R` in a file of `N`
lines, the context window has length exactly
`min (L-1) R + 1 + min (N-L) R`, and its elements are lines of the file
(never padding). -/
theorem context_window_exact (lines : List Str) (R L : Nat)
    (h1 : 1 ≤ L) (h2 : L ≤ lines.length) :
    (getContextLines R lines L).length =
      min (L - 1) R + 1 + min (lines.length - L) R ∧
    ∀ x ∈ getContextLines R lines L, x ∈ lines := by
  constructor
  · simp only [getContextLines, pySlice, List.length_take, List.length_drop]
    omega
  · intro x hx
    simp only [getContextLines, pySlice] at hx
    exact List.mem_of_mem_drop (List.mem_of_mem_take hx)

/-- C4 witness: a match on line 2 of a three-line file with radius 3 keeps
all three lines. -/
theorem context_window_exact_witness :
    (getContextLines 3 [strOf "a", strOf "b", strOf "c"] 2).length =
      min (2 - 1) 3 + 1 + min (3 - 2) 3 ∧
    ∀ x ∈ getContextLines 3 [strOf "a", strOf "b", strOf "c"] 2,
      x ∈ [strOf "a", strOf "b", strOf "c"] := by
  have h := context_window_exact [strOf "a", strOf "b", strOf "c"] 3 2
    (by decide) (by decide)
  simpa using h

/-! ### Redaction of client tokens -/

/-- Looking up the key just assigned returns the assigned value. -/
theorem dictGet?_dictSet_self (d : Dict) (k v : Str) :
    dictGet? (dictSet d k v) k = some v := by
  induction d with
  | nil => simp [dictSet, dictGet?]
  | cons p rest ih =>
    by_cases hp : p.1 = k
    · simp [dictSet, hp, dictGet?]
    · simp only [dictSet, if_neg hp, dictGet?, List.find?_cons]
      have hb : (p.1 == k) = false := by
        simp [hp]
      rw [hb]
      exact ih

/-- Assigning one key does not change the lookup of another. -/
theorem dictGet?_dictSet_ne (d : Dict) {k k2 : Str} (v : Str) (h : k ≠ k2) :
    dictGet? (dictSet d k v) k2 = dictGet? d k2 := by
  induction d with
  | nil => simp [dictSet, dictGet?, h]
  | cons p rest ih =>
    by_cases hp : p.1 = k
    · simp only [dictSet, if_pos hp, dictGet?, List.find?_cons]
      have h1 : (k == k2) = false := by simp [h]
      have h2 : (p.1 == k2) = false := by simp [hp ▸ h]
      rw [h1, h2]
    · simp only [dictSet, if_neg hp, dictGet?, List.find?_cons]
      cases hb : (p.1 == k2) with
      | true => rfl
      | false => exact ih

/-- C3 (amended).  Every captured `clientToken` value — of any length — is
stored under `client_token` as its first 10 characters followed by the
ellipsis marker; for values of length at least 10 this is the truncation
the claim describes, while shorter values keep their full text but still
receive the marker. -/
theorem client_token_redaction (line tok : Str)
    (h : clientTokenCaptured line = some tok) :
    dictGet? (extractDataFromLine line (strOf "init")) (strOf "client_token") =
      some (tok.take 10 ++ strOf "...") := by
  unfold clientTokenCaptured at h
  cases hc : searchGroup1 false initConfigRe line with
  | none => rw [hc] at h; exact absurd h (by simp)
  | some config_str =>
    have h2 : searchGroup1 false clientTokenRe config_str = some tok := by
      rw [hc] at h
      exact h
    unfold extractDataFromLine
    rw [if_neg (by decide), if_pos rfl]
    cases hs : searchGroup1 false siteRe config_str with
    | none =>
      cases ha : searchGroup1 false appIdRe config_str with
      | none =>
        simp only [hc, h2, hs, ha]
        exact dictGet?_dictSet_self _ _ _
      | some v =>
        simp only [hc, h2, hs, ha]
        exact dictGet?_dictSet_self _ _ _
    | some v =>
      cases ha : searchGroup1 false appIdRe config_str with
      | none =>
        simp only [hc, h2, hs, ha]
        rw [dictGet?_dictSet_ne _ _ (by decide)]
        exact dictGet?_dictSet_self _ _ _
      | some v2 =>
        simp only [hc, h2, hs, ha]
        rw [dictGet?_dictSet_ne _ _ (by decide)]
        exact dictGet?_dictSet_self _ _ _

/-- C3 witness: a 15-character token is stored truncated to its first 10
characters plus the ellipsis marker. -/
theorem client_token_redaction_witness :
    clientTokenCaptured (strOf "datadogRum.init(\x7b clientToken: 'abcdefghijKLMNO' \x7d);") =
      some (strOf "abcdefghijKLMNO") ∧
    dictGet?
      (extractDataFromLine (strOf "datadogRum.init(\x7b clientToken: 'abcdefghijKLMNO' \x7d);")
        (strOf "init"))
      (strOf "client_token") = some (strOf "abcdefghij...") := by
  refine ⟨by decide, ?_⟩
  rw [client_token_redaction _ (strOf "abcdefghijKLMNO") (by decide)]
  decide

/-- C3 counterexample: the 3-character token `abc` is also stored with the
ellipsis marker (`abc...`), so short values are not exempt from the
truncated-with-ellipsis form, contrary to the claim. -/
theorem client_token_short_flagged_counterexample :
    dictGet?
      (extractDataFromLine (strOf "datadogRum.init(\x7b clientToken: 'abc' \x7d);")
        (strOf "init"))
      (strOf "client_token") = some (strOf "abc...") ∧
    (strOf "abc").length < 10 ∧
    strOf "abc..." = (strOf "abc").take 10 ++ strOf "..." := by
  refine ⟨?_, by decide, by decide⟩
  decide

/-! ### Failure isolation in the scan orchestrator -/

/-- C9.  A file whose read fails or whose detector raises contributes no
findings, and its presence anywhere in the task list leaves every other
file's findings in the project result. -/
theorem scan_failure_isolation (cfg : DetectorConfig) (linkFn : Str → Nat → Str)
    (pre post : List FileTask) (t : FileTask)
    (h : t.readResult = none ∨ t.detectorRaises = true) :
    scanFile cfg linkFn t = [] ∧
    scanProject cfg linkFn (pre ++ t :: post) =
      scanProject cfg linkFn pre ++ scanProject cfg linkFn post := by
  have hfile : scanFile cfg linkFn t = [] := by
    rcases h with h | h
    · by_cases hr : t.detectorRaises
      · simp [scanFile, hr]
      · simp [scanFile, hr, h]
    · simp [scanFile, h]
  refine ⟨hfile, ?_⟩
  simp [scanProject, hfile]

/-- C9 witness: a raising task between healthy tasks changes nothing. -/
theorem scan_failure_isolation_witness :
    scanFile cfgDefault (fun _ _ => strOf "L") taskFailing = [] ∧
    scanProject cfgDefault (fun _ _ => strOf "L") ([taskHealthy] ++ taskFailing :: []) =
      scanProject cfgDefault (fun _ _ => strOf "L") [taskHealthy] ++
        scanProject cfgDefault (fun _ _ => strOf "L") [] :=
  scan_failure_isolation cfgDefault (fun _ _ => strOf "L") [taskHealthy] [] taskFailing
    (Or.inr rfl)

/-! ### Alias handling in the import resolver -/

/-- C1 counterexample: on the claim's own input the symbol map binds the
original exported name `addAction` — not the local alias `track` — and the
later `track();` line therefore yields no finding at all: detection returns
only the line-1 import finding. -/
theorem alias_import_counterexample :
    ((extractImportedMethods
        (strOf "import { addAction as track } from '@datadog/browser-rum';\ntrack();")
        (strOf "a.ts")).map Prod.fst) = [strOf "addAction"] ∧
    ((detectDatadogUsage cfgDefault (strOf "a.ts")
        (strOf "import { addAction as track } from '@datadog/browser-rum';\ntrack();")
        (strOf "p") (strOf "u")).map
      (fun f => (f.line_number, f.operation_type))) =
      [(1, DataDogOperationType.IMPORT)] := by
  constructor
  · decide
  · decide

/-- C1 (amended).  `method.split(' as ')[0]` keeps the text before the
alias keyword, so a brace-destructured renamed import binds the original
exported name: the alias map of the scenario holds exactly `addAction`, an
aliased call line `track();` is not matched, and a call line using the
original name `addAction('x');` is resolved through the symbol map into a
finding whose `method_name` is the original name. -/
theorem alias_import_resolution_amended :
    ((extractImportedMethods
        (strOf "import { addAction as track } from '@datadog/browser-rum';\ntrack();")
        (strOf "a.ts")).map Prod.fst) = [strOf "addAction"] ∧
    ((detectDatadogUsage cfgDefault (strOf "a.ts")
        (strOf "import { addAction as track } from '@datadog/browser-rum';\naddAction('x');")
        (strOf "p") (strOf "u")).map
      (fun f => (f.line_number, f.operation_type,
        dictGet? f.data_being_sent (strOf "method_name")))) =
      [(1, DataDogOperationType.IMPORT, none),
       (2, DataDogOperationType.RUM_ACTION, some (strOf "addAction"))] := by
  constructor
  · decide
  · decide

/-! ### Data-category classification of RUM actions -/

/-- C8 counterexample: the action name `touch-here` contains the claim's
interaction verb `touch`, yet the finding is categorised as system data,
because `touch` is absent from the detector's keyword list. -/
theorem rum_action_touch_counterexample :
    inStr (strOf "touch") (lowerStr (strOf "touch-here")) = true ∧
    ((detectDatadogUsage cfgDefault (strOf "a.ts")
        (strOf "datadogRum.addAction('touch-here');") (strOf "p") (strOf "u")).map
      (fun f => (f.line_number, f.operation_type, f.data_category,
        dictGet? f.data_being_sent (strOf "action_name")))) =
      [(1, DataDogOperationType.RUM_ACTION, DataCategory.SYSTEM_DATA,
        some (strOf "touch-here"))] ∧
    DataCategory.SYSTEM_DATA ≠ DataCategory.USER_DATA := by
  refine ⟨by decide, ?_, by decide⟩
  decide

/-- C8 (amended).  A rum-action finding is categorised as user data exactly
when its extracted action name contains one of the seven keywords
click, tap, swipe, scroll, input, select, submit (the source list omits
`touch`); Scenario A holds: the `button-click` action line yields one
finding with operation `rum_action`, category user data, and extracted
action name `button-click`. -/
theorem rum_action_user_categorisation_amended :
    (∀ d : Dict, categoriseData d (strOf "rum_action") = DataCategory.USER_DATA ↔
      userActionKeywords.any
        (fun kw => inStr kw (lowerStr (dictGetD d (strOf "action_name") []))) = true) ∧
    ((detectDatadogUsage cfgDefault (strOf "a.ts")
        (strOf "datadogRum.addAction('button-click', \x7b userId: '123' \x7d);")
        (strOf "p") (strOf "u")).map
      (fun f => (f.line_number, f.operation_type, f.data_category,
        dictGet? f.data_being_sent (strOf "action_name")))) =
      [(1, DataDogOperationType.RUM_ACTION, DataCategory.USER_DATA,
        some (strOf "button-click"))] := by
  constructor
  · intro d
    unfold categoriseData
    rw [if_neg (by decide), if_neg (by decide), if_neg (by decide), if_neg (by decide),
      if_neg (by decide), if_neg (by decide), if_pos rfl]
    by_cases hk : userActionKeywords.any
        (fun kw => inStr kw (lowerStr (dictGetD d (strOf "action_name") []))) = true
    · simp [hk]
    · simp [hk]
  · decide

end DatadogScanner
